import Mathlib

/-
Verification of the session-lifecycle and account-ledger core of the
glide-take-home banking backend.

The embedding below is a shallow model of the TypeScript source:
  - `src/server/utils/session-token.ts` (getSessionToken),
  - `src/server/trpc.ts` (createContext, i.e. session resolution),
  - `src/server/routers/auth.ts` (signup, login, logout, me, sanitizeUser),
  - `src/server/routers/account.ts` (createAccount, fundAccount,
    getTransactions, centsFromDollars, dollarsFromCents),
  - `src/lib/validation/signup.ts` (normalizeEmail, validateEmailField),
  - `src/lib/encryption.ts` (validateSSN, getEncryptionKey, encryptSSN).

Persistence (SQLite via drizzle) is modelled as an explicit record of row
lists; each mutation returns the post-call database state together with the
RPC result, so a thrown TRPCError after a persisted write leaves that write
visible in the returned state, exactly as the source behaves (the source
never wraps the funding writes in a storage transaction).  Monetary amounts
cross the RPC boundary as rational numbers (decimal dollars) and are stored
as integer cents.  Timestamps are integers (milliseconds).  The SSN
encryption module (lib/encryption.ts) is embedded from the source; external
collaborators that are not part of the repository source (bcrypt, the JWT
codec, the node AES-GCM cipher, the card-validator library) are modelled
from the spec where needed; each such definition is marked in its doc
comment.
-/

namespace GlideBank

/-! ## Data model (lib/db/schema, as used by the routers) -/

/-- A row of the `users` table.  The password column holds the bcrypt digest
and the ssn column holds the encryption envelope, never the plaintext. -/
structure User where
  id : Nat
  email : String
  password : String
  firstName : String
  lastName : String
  phoneNumber : String
  dateOfBirth : String
  ssn : String
  address : String
  city : String
  state : String
  zipCode : String
deriving DecidableEq

/-- The user payload produced by `sanitizeUser` and by `createContext`:
all `users` columns except `password` and `ssn`.  By construction a value of
this type cannot carry the credential digest or the PII envelope. -/
structure SafeUser where
  id : Nat
  email : String
  firstName : String
  lastName : String
  phoneNumber : String
  dateOfBirth : String
  address : String
  city : String
  state : String
  zipCode : String
deriving DecidableEq

/-- A row of the `sessions` table. -/
structure Session where
  userId : Nat
  token : String
  expiresAt : Int
deriving DecidableEq

/-- A row of the `accounts` table; `balance` is integer cents. -/
structure Account where
  id : Nat
  userId : Nat
  accountNumber : String
  accountType : String
  balance : Int
  status : String
deriving DecidableEq

/-- A row of the `transactions` table; `amount` is integer cents. -/
structure Txn where
  id : Nat
  accountId : Nat
  type : String
  amount : Int
  description : String
  status : String
  createdAt : Int
  processedAt : Int
deriving DecidableEq

/-- The persisted database.  Lists are in insertion (rowid) order; the
`next*` counters model the integer-primary-key allocation of SQLite. -/
structure DB where
  users : List User
  sessions : List Session
  accounts : List Account
  transactions : List Txn
  nextUserId : Nat
  nextAccountId : Nat
  nextTxnId : Nat
deriving DecidableEq

def findUserByEmail (db : DB) (email : String) : Option User :=
  db.users.find? (fun u => u.email == email)

def findUserById (db : DB) (id : Nat) : Option User :=
  db.users.find? (fun u => u.id == id)

def findSessionByToken (db : DB) (token : String) : Option Session :=
  db.sessions.find? (fun s => s.token == token)

/-- `sanitizeUser` from auth.ts: destructures away `password` and `ssn` and
returns the rest of the row. -/
def sanitizeUser (u : User) : SafeUser :=
  { id := u.id, email := u.email, firstName := u.firstName,
    lastName := u.lastName, phoneNumber := u.phoneNumber,
    dateOfBirth := u.dateOfBirth, address := u.address, city := u.city,
    state := u.state, zipCode := u.zipCode }

/-- A TRPCError as thrown by the routers: a code plus a message. -/
structure TrpcErr where
  code : String
  message : String
deriving DecidableEq

/-- Decidable equality of RPC results. -/
instance {ε α : Type} [DecidableEq ε] [DecidableEq α] :
    DecidableEq (Except ε α) := fun x y =>
  match x, y with
  | .ok a, .ok b =>
    if h : a = b then isTrue (by rw [h]) else isFalse (by simp [h])
  | .error a, .error b =>
    if h : a = b then isTrue (by rw [h]) else isFalse (by simp [h])
  | .ok _, .error _ => isFalse (by simp)
  | .error _, .ok _ => isFalse (by simp)

/-! ## String helpers

JavaScript string primitives used by the source (`split`, `startsWith`,
`trim`, `toLowerCase`), implemented structurally over the character list so
that concrete runs reduce inside the kernel.  `jsSplit` matches the
semantics of `String.prototype.split` for a non-empty plain separator. -/

/-- Splitting with explicit fuel (the fuel is the input length, so the fuel
branch labelled unreachable below never fires on the initial call). -/
def jsSplitGo (sep : List Char) : Nat → List Char → List Char → List (List Char)
  | _, [], acc => [acc.reverse]
  | 0, l, acc => [acc.reverse ++ l]
  | fuel + 1, c :: rest, acc =>
    if sep.isPrefixOf (c :: rest) then
      acc.reverse :: jsSplitGo sep fuel (List.drop (sep.length - 1) rest) []
    else
      jsSplitGo sep fuel rest (c :: acc)

/-- JS `s.split(sep)` for a non-empty literal separator. -/
def jsSplit (s sep : String) : List String :=
  (jsSplitGo sep.data (s.data.length + sep.data.length) s.data []).map String.mk

/-- JS `s.startsWith(p)`. -/
def jsStartsWith (s p : String) : Bool :=
  p.data.isPrefixOf s.data

/-- JS `s.trim()` (whitespace stripped from both ends). -/
def jsTrim (s : String) : String :=
  String.mk (((s.data.dropWhile Char.isWhitespace).reverse.dropWhile
    Char.isWhitespace).reverse)

/-- JS `s.toLowerCase()` (ASCII case folding, as `Char.toLower`). -/
def jsToLower (s : String) : String :=
  String.mk (s.data.map Char.toLower)

/-- JS truthiness of an optional string: `undefined`, `null` and the empty
string are falsy. -/
def jsTruthy : Option String → Bool
  | some s => !(s == "")
  | none => false

/-! ## Request transport shapes (session-token.ts `RequestLike`) -/

/-- The pre-parsed cookie jar (`req.cookies`), keeping only the `session`
field the source reads. -/
structure CookieJar where
  session : Option String

/-- `req.headers`: an optional raw `cookie` field and an optional
Fetch-style accessor function `get`. -/
structure ReqHeaders where
  cookie : Option String
  get : Option (String → Option String)

/-- The duck-typed request object handled by `getSessionToken`. -/
structure RequestLike where
  cookies : Option CookieJar
  headers : ReqHeaders

/-- Parse a raw cookie header the way the source does: split on a literal
"; ", find the first part starting with "session=", and take the text
between the first and second "=" of that part. -/
def parseCookieHeader (cookieHeader : Option String) : Option String :=
  if !(jsTruthy cookieHeader) then none
  else
    let header := cookieHeader.getD ""
    match (jsSplit header "; ").find? (fun c => jsStartsWith c "session=") with
    | none => none
    | some sessionCookie => some ((jsSplit sessionCookie "=").getD 1 "")

/-- `getSessionToken` from session-token.ts.  Precedence as written in the
source: (1) the parsed `cookies.session` field when truthy (non-empty);
otherwise (2) when `headers.get` is a function, the raw header is taken
from `headers.get("cookie")`; (3) only when no `get` function exists is the
direct `headers.cookie` field consulted.  The chosen raw header is then
parsed with `parseCookieHeader`. -/
def getSessionToken (req : RequestLike) : Option String :=
  if jsTruthy (req.cookies.bind CookieJar.session) then
    req.cookies.bind CookieJar.session
  else
    let cookieHeader : Option String :=
      match req.headers.get with
      | some g => g "cookie"
      | none => req.headers.cookie
    parseCookieHeader cookieHeader

/-! ## Session resolution (createContext in trpc.ts) -/

/-- The user half of `createContext` from trpc.ts.  `verify` stands for
`jwt.verify` (the external token codec): it either yields the userId bound
in the token or fails, in which case the catch block leaves the user
anonymous.  `now` is the timestamp of the resolution call; the aliveness
comparison in the source evaluates `new Date()` once, strictly:
`new Date(session.expiresAt) > new Date()`. -/
def createContextUser (db : DB) (req : RequestLike)
    (verify : String → Option Nat) (now : Int) : Option SafeUser :=
  match getSessionToken req with
  | none => none
  | some token =>
    if token == "" then none
    else
      match verify token with
      | none => none
      | some userId =>
        match findSessionByToken db token with
        | none => none
        | some session =>
          if now < session.expiresAt then
            match findUserById db userId with
            | none => none
            | some dbUser => some (sanitizeUser dbUser)
          else none

/-! ## External collaborators (modelled from the spec)

The bcrypt library is consumed by the source but is not part of this
repository; the spec (section 6) gives its contract. -/

/-- Modelled from the spec: the credential hashing collaborator
(`bcrypt.hash`, section 6).  A bcrypt digest is a marked string in the
`$2a$10$...` format and never equals the plaintext; the model prepends the
bcrypt version/cost prefix. -/
def bcryptHash (plaintext : String) : String :=
  "$2a$10$" ++ plaintext

/-- Modelled from the spec: the credential check collaborator
(`bcrypt.compare`, section 6): succeeds exactly when the digest was produced
from the plaintext. -/
def bcryptCompare (plaintext digest : String) : Bool :=
  digest == bcryptHash plaintext

/-! ## SSN encryption (lib/encryption.ts)

The write path of the repository's encryption module, embedded from the
source: the 9-digit validation, the ENCRYPTION_KEY handling with its two
failure modes, and the `iv:authTag:ciphertext` hex envelope.  Only the
AES-256-GCM cipher itself (node's `crypto.createCipheriv`) and the random
IV draw (`crypto.randomBytes`) are external; the cipher is modelled from
the spec and the IV is an explicit input. -/

/-- A character matched by the source's key-normalization pattern
(hexadecimal in either case). -/
def isHexChar (c : Char) : Bool :=
  c.isDigit || (decide ('a' ≤ c) && decide (c ≤ 'f'))
    || (decide ('A' ≤ c) && decide (c ≤ 'F'))

/-- `validateSSN` from lib/encryption.ts: the SSN must match the nine-digit
pattern, else the module throws. -/
def validateSSN (ssn : String) : Bool :=
  ssn.data.length == 9 && ssn.data.all Char.isDigit

/-- `getEncryptionKey` from lib/encryption.ts: requires a truthy
`process.env.ENCRYPTION_KEY`, strips every non-hex character, requires at
least 64 hex characters (32 bytes) and keeps the first 64; the key bytes
are kept here in their hex spelling. -/
def getEncryptionKey (envKey : Option String) : Except String String :=
  if !(jsTruthy envKey) then
    .error "ENCRYPTION_KEY environment variable is required"
  else
    if ((envKey.getD "").data.filter isHexChar).length < 64 then
      .error "ENCRYPTION_KEY must be at least 64 hex characters (32 bytes)"
    else
      .ok (String.mk (((envKey.getD "").data.filter isHexChar).take 64))

/-- The lower-case hex digit of a value below 16. -/
def hexDigitChar (n : Nat) : Char :=
  "0123456789abcdef".data.getD n '0'

/-- The two hex digits of one byte. -/
def byteHex (c : Char) : List Char :=
  [hexDigitChar (c.toNat / 16 % 16), hexDigitChar (c.toNat % 16)]

/-- Hex encoding of a one-byte-per-character string, as
`Buffer.from(s, "utf8").toString("hex")` for the ASCII strings that reach
the cipher here. -/
def utf8Hex (s : String) : String :=
  String.mk (s.data.flatMap byteHex)

/-- Modelled from the spec: the external AES-256-GCM cipher of node's
crypto module (`createCipheriv`, `update`/`final`, `getAuthTag`), which is
not part of this repository.  Given the key, the IV and the plaintext it
yields the hex ciphertext and the hex auth tag; the stand-in hex-encodes
the plaintext and derives a 32-hex-character tag from the key and IV (the
cryptographic strength of the real cipher plays no role in any claim). -/
def aes256GcmHex (key iv plaintext : String) : String × String :=
  (utf8Hex plaintext, String.mk ((key ++ iv).data.take 32))

/-- `encryptSSN` from lib/encryption.ts, with the process environment and
the drawn IV explicit: validate the SSN, obtain the key (either step may
fail, which the caller sees as a thrown error), run the cipher and join
the IV, the auth tag and the ciphertext with colons. -/
def encryptSSNWith (envKey : Option String) (ivHex ssn : String) :
    Except String String :=
  if !(validateSSN ssn) then .error "SSN must be exactly 9 numeric digits"
  else
    match getEncryptionKey envKey with
    | .error e => .error e
    | .ok key =>
      .ok (ivHex ++ ":" ++ (aes256GcmHex key ivHex ssn).2 ++ ":"
        ++ (aes256GcmHex key ivHex ssn).1)

/-- The configured deployment environment of the model: a valid
64-hex-character ENCRYPTION_KEY (the system requires one to operate). -/
def encryptionKeyEnv : Option String :=
  some "00112233445566778899aabbccddeeff00112233445566778899aabbccddeeff"

/-- The IV for a call, standing in for the 12 random bytes of
`crypto.randomBytes(IV_LENGTH)` in hex; its randomness plays no role in
any claim, so the model fixes it. -/
def ivFixed : String := "0102030405060708090a0b0c"

/-- The zod input-validation rejection: tRPC reports schema failures as
BAD_REQUEST before the mutation body runs. -/
def zodBadRequest : TrpcErr :=
  ⟨"BAD_REQUEST", "Invalid input"⟩

/-! ## Auth router (auth.ts) -/

/-- The error thrown by login on unknown email and on wrong password: the
same code and the same message in both branches. -/
def invalidCredentials : TrpcErr :=
  { code := "UNAUTHORIZED", message := "Invalid credentials" }

/-- `normalizeEmail` from lib/validation/signup.ts: the external
`validator.normalizeEmail` call (all provider-specific rewrite options
disabled at this call site) is modelled as the identity, followed by the
`toLowerCase()` of the source. -/
def normalizeEmail (email : String) : String :=
  jsToLower email

/-- The normalized email computed by `validateEmailField`: the input is
trimmed, parsed (validity checks live in the external validator library and
do not change the string) and normalized. -/
def validatedNormalizedEmail (email : String) : String :=
  normalizeEmail (jsTrim email)

/-- The notification bag computed by `validateEmailField`: one entry when
normalization changed the parsed email. -/
def emailNotifications (email : String) : List (String × String) :=
  if validatedNormalizedEmail email != jsTrim email then
    [("emailNormalization", "Email was converted to lowercase for consistency")]
  else []

/-- The signup input after zod parsing (signupInputSchema). -/
structure SignupInput where
  email : String
  password : String
  firstName : String
  lastName : String
  phoneNumber : String
  dateOfBirth : String
  ssn : String
  address : String
  city : String
  state : String
  zipCode : String
deriving DecidableEq

/-- Session lifetime: `expiresAt.setDate(expiresAt.getDate() + 7)`, seven
days in milliseconds. -/
def sessionLifetimeMs : Int := 7 * 24 * 60 * 60 * 1000

abbrev SignupOk := SafeUser × String × List (String × String)

/-- The user row inserted by signup: the input fields with the normalized
email, the bcrypt digest and the SSN envelope, under the next key. -/
def signupInsertedUser (db : DB) (input : SignupInput)
    (ssnEnvelope : String) : User :=
  { id := db.nextUserId, email := validatedNormalizedEmail input.email,
    password := bcryptHash input.password,
    firstName := input.firstName, lastName := input.lastName,
    phoneNumber := input.phoneNumber, dateOfBirth := input.dateOfBirth,
    ssn := ssnEnvelope, address := input.address,
    city := input.city, state := input.state, zipCode := input.zipCode }

/-- The database after the user insert of signup. -/
def signupDbAfterUserInsert (db : DB) (input : SignupInput)
    (ssnEnvelope : String) : DB :=
  { db with users := db.users ++ [signupInsertedUser db input ssnEnvelope],
            nextUserId := db.nextUserId + 1 }

/-- `authRouter.signup` from auth.ts.  `ctxUser` is the identity resolved by
`createContext`; `token` is the fresh token produced by
`createSessionToken` (the JWT codec draws a random session id, so the token
is an oracle input here); `now` is the call timestamp.  The leading SSN
pattern check is the `ssn` rule of the zod input schema
(`z.string().regex(/^\d{9}$/)`), which tRPC applies before the mutation
body runs; the remaining schema rules touch nothing this development
reasons about and are not modelled.  The `encryptSSN` call runs in the
configured environment with the drawn IV; the error branch mirrors the
thrown error surfacing as an internal error before any insert.  Returns
the post-call database (all writes up to the point of a thrown error are
kept, as in the source) and either the error or the sanitized user, token
and notifications. -/
def signup (db : DB) (ctxUser : Option SafeUser) (input : SignupInput)
    (token : String) (now : Int) : DB × Except TrpcErr SignupOk :=
  if !(validateSSN input.ssn) then (db, .error zodBadRequest)
  else
    match ctxUser with
    | some _ =>
      (db, .error ⟨"FORBIDDEN",
        "Cannot signup while already logged in. Please logout first."⟩)
    | none =>
      match findUserByEmail db (validatedNormalizedEmail input.email) with
      | some _ => (db, .error ⟨"CONFLICT", "User already exists"⟩)
      | none =>
        match encryptSSNWith encryptionKeyEnv ivFixed input.ssn with
        | .error msg => (db, .error ⟨"INTERNAL_SERVER_ERROR", msg⟩)
        | .ok ssnEnvelope =>
          match findUserByEmail (signupDbAfterUserInsert db input ssnEnvelope)
              (validatedNormalizedEmail input.email) with
          | none =>
            (signupDbAfterUserInsert db input ssnEnvelope,
             .error ⟨"INTERNAL_SERVER_ERROR", "Failed to create user"⟩)
          | some user =>
            ({ signupDbAfterUserInsert db input ssnEnvelope with
                 sessions := db.sessions ++
                   [{ userId := user.id, token := token,
                      expiresAt := now + sessionLifetimeMs }] },
             .ok (sanitizeUser user, token, emailNotifications input.email))

abbrev LoginOk := SafeUser × String

/-- `authRouter.login` from auth.ts: refuses when already authenticated,
answers with the one `invalidCredentials` error both when the email matches
no user and when the password check fails, and on success inserts one new
session row (no prior session of the user is touched). -/
def login (db : DB) (ctxUser : Option SafeUser) (email password : String)
    (token : String) (now : Int) : DB × Except TrpcErr LoginOk :=
  match ctxUser with
  | some _ =>
    (db, .error ⟨"FORBIDDEN",
      "Cannot login while already logged in. Please logout first."⟩)
  | none =>
    match findUserByEmail db email with
    | none => (db, .error invalidCredentials)
    | some user =>
      if bcryptCompare password user.password then
        let db1 : DB := { db with sessions := db.sessions ++
          [{ userId := user.id, token := token,
             expiresAt := now + sessionLifetimeMs }] }
        (db1, .ok (sanitizeUser user, token))
      else
        (db, .error invalidCredentials)

/-- The RPC result of logout. -/
structure LogoutResult where
  success : Bool
  message : String
deriving DecidableEq

/-- `authRouter.logout` from auth.ts: with an anonymous identity nothing is
deleted; with a resolved identity the token is re-extracted from the
request via `getSessionToken` and, when truthy, every session row carrying
that token is deleted.  The call always reports success. -/
def logout (db : DB) (ctxUser : Option SafeUser) (req : RequestLike) :
    DB × LogoutResult :=
  let db' :=
    match ctxUser with
    | some _ =>
      match getSessionToken req with
      | some t =>
        if t == "" then db
        else { db with sessions := db.sessions.filter (fun s => !(s.token == t)) }
      | none => db
    | none => db
  (db', { success := true,
          message := if ctxUser.isSome then "Logged out successfully"
                     else "No active session" })

/-- `authRouter.me` from auth.ts: the context user is already sanitized, so
the extra `sanitizeUser` in the source is the identity on it. -/
def me (ctxUser : Option SafeUser) : Option SafeUser :=
  ctxUser

/-! ## Account router (account.ts) -/

/-- `centsFromDollars` from account.ts: `Math.round(amount * 100)`.
JS `Math.round` is floor of the value plus one half. -/
def centsFromDollars (amount : ℚ) : Int :=
  ⌊amount * 100 + 1/2⌋

/-- `dollarsFromCents` from account.ts: `cents / 100`. -/
def dollarsFromCents (cents : Int) : ℚ :=
  (cents : ℚ) / 100

/-- The serialized account returned over RPC (balance in dollars). -/
structure AccountOut where
  id : Nat
  userId : Nat
  accountNumber : String
  accountType : String
  balance : ℚ
  status : String
deriving DecidableEq

/-- `serializeAccount` from account.ts. -/
def serializeAccount (a : Account) : AccountOut :=
  { id := a.id, userId := a.userId, accountNumber := a.accountNumber,
    accountType := a.accountType, balance := dollarsFromCents a.balance,
    status := a.status }

/-- The serialized transaction returned over RPC (amount in dollars). -/
structure TxnOut where
  id : Nat
  accountId : Nat
  type : String
  amount : ℚ
  description : String
  status : String
  createdAt : Int
  processedAt : Int
deriving DecidableEq

/-- `serializeTransaction` from account.ts. -/
def serializeTransaction (t : Txn) : TxnOut :=
  { id := t.id, accountId := t.accountId, type := t.type,
    amount := dollarsFromCents t.amount, description := t.description,
    status := t.status, createdAt := t.createdAt, processedAt := t.processedAt }

/-- The tagged funding source union of the fundAccount input schema: the
card variant carries a card number, the bank variant additionally a routing
number. -/
inductive FundingSource where
  | card (accountNumber : String)
  | bank (accountNumber routingNumber : String)
deriving DecidableEq

/-- The `type` discriminator string of a funding source. -/
def FundingSource.typeName : FundingSource → String
  | .card _ => "card"
  | .bank _ _ => "bank"

/-- Modelled from the spec: the brand/Luhn card check of the external
card-validator library (`valid.number`), which is not part of this
repository.  Doubles every second digit from the right, sums the digits and
accepts when the sum is a multiple of ten and the length fits a card. -/
def luhnSum : List Nat → Bool → Nat
  | [], _ => 0
  | d :: rest, dbl =>
    (if dbl then (if 2 * d > 9 then 2 * d - 9 else 2 * d) else d)
      + luhnSum rest (!dbl)

/-- Modelled from the spec: acceptance of the external card number check on
an already normalized (separator-free) string. -/
def cardValidatorAccepts (s : String) : Bool :=
  decide (13 ≤ s.data.length) && decide (s.data.length ≤ 19)
    && s.data.all Char.isDigit
    && (luhnSum ((s.data.reverse).map (fun c => c.toNat - 48)) false) % 10 == 0

/-- `validateCardNumber` from lib/validation/payment.ts: strips spaces and
hyphens (the source regex `[\s-]`) and defers to the card-validator
library. -/
def validateCardNumber (raw : String) : Bool :=
  cardValidatorAccepts
    (String.mk (raw.data.filter (fun c => !(c == ' ' || c == '-'))))

/-- Validity of the fundAccount zod input: the dollar amount must be
positive, and a bank source must carry a nine-digit routing number (the
card number string itself has no schema constraint). -/
def fundInputValid (amount : ℚ) (src : FundingSource) : Bool :=
  decide (0 < amount) &&
    (match src with
     | .card _ => true
     | .bank _ routing =>
       routing.data.length == 9 && routing.data.all Char.isDigit)

/-- The account row inserted by createAccount: balance 0, status active,
under the next key. -/
def createdAccountRow (db : DB) (callerId : Nat) (accountType accNum : String) :
    Account :=
  { id := db.nextAccountId, userId := callerId, accountNumber := accNum,
    accountType := accountType, balance := 0, status := "active" }

/-- The database after the account insert of createAccount. -/
def createAccountDbAfterInsert (db : DB) (callerId : Nat)
    (accountType accNum : String) : DB :=
  { db with
      accounts := db.accounts ++
        [createdAccountRow db callerId accountType accNum],
      nextAccountId := db.nextAccountId + 1 }

/-- `accountRouter.createAccount` from account.ts.  `callerId` is the id of
the authenticated user (protectedProcedure), `accNum` is the account number
on which the generate-retry loop terminated (the loop leaves only an unused
number, drawn from a cryptographically strong source).  Persists the new
account with balance 0 and status active, re-fetches it by account number
and returns the serialized row, failing fatally when the read-back finds
nothing. -/
def createAccount (db : DB) (callerId : Nat) (accountType : String)
    (accNum : String) : DB × Except TrpcErr AccountOut :=
  if !(accountType == "checking" || accountType == "savings") then
    (db, .error zodBadRequest)
  else
    match db.accounts.find? (fun a =>
        a.userId == callerId && a.accountType == accountType) with
    | some _ =>
      (db, .error ⟨"CONFLICT", "You already have a " ++ accountType ++ " account"⟩)
    | none =>
      match (createAccountDbAfterInsert db callerId accountType
          accNum).accounts.find? (fun a => a.accountNumber == accNum) with
      | none =>
        (createAccountDbAfterInsert db callerId accountType accNum,
         .error ⟨"INTERNAL_SERVER_ERROR", "Failed to create account"⟩)
      | some account =>
        (createAccountDbAfterInsert db callerId accountType accNum,
         .ok (serializeAccount account))

/-- Which storage writes of a funding call return a row: models the failure
point between the two separate awaited writes of the source.  A write whose
flag is false fails without applying (`.returning().get()` yields nothing
and the source throws). -/
structure StorageFaults where
  insertReturnsRow : Bool
  updateReturnsRow : Bool
deriving DecidableEq

/-- The fault-free storage behaviour. -/
def noFaults : StorageFaults := ⟨true, true⟩

abbrev FundOk := TxnOut × ℚ

/-- The transaction row inserted by fundAccount, under the next key. -/
def fundTxn (db : DB) (accountId : Nat) (amount : ℚ) (src : FundingSource)
    (now : Int) : Txn :=
  { id := db.nextTxnId, accountId := accountId, type := "deposit",
    amount := centsFromDollars amount,
    description := "Funding from " ++ src.typeName,
    status := "completed", createdAt := now, processedAt := now }

/-- The database after the transaction insert of fundAccount. -/
def fundDbAfterInsert (db : DB) (accountId : Nat) (amount : ℚ)
    (src : FundingSource) (now : Int) : DB :=
  { db with
      transactions := db.transactions ++
        [fundTxn db accountId amount src now],
      nextTxnId := db.nextTxnId + 1 }

/-- The drizzle balance update of fundAccount: every accounts row whose id
matches gets the new balance. -/
def fundApplyBalance (db : DB) (accountId : Nat) (newBalance : Int) : DB :=
  { db with accounts := db.accounts.map (fun a =>
      if a.id == accountId then { a with balance := newBalance } else a) }

/-- `accountRouter.fundAccount` from account.ts.  The two writes (insert the
transaction row, update the balance) are separate storage statements; the
source does not wrap them in a database transaction, so when the update
fails after the insert succeeded the returned state keeps the inserted
transaction row while the balance is unchanged.  The new balance is
computed from the `account.balance` read at the start of the call. -/
def fundAccount (db : DB) (callerId accountId : Nat) (amount : ℚ)
    (src : FundingSource) (now : Int) (faults : StorageFaults) :
    DB × Except TrpcErr FundOk :=
  if !(fundInputValid amount src) then (db, .error zodBadRequest)
  else if (match src with
           | .card num => !(validateCardNumber num)
           | .bank _ _ => false) then
    (db, .error ⟨"BAD_REQUEST", "Invalid card number"⟩)
  else
    match db.accounts.find? (fun a =>
        a.id == accountId && a.userId == callerId) with
    | none => (db, .error ⟨"NOT_FOUND", "Account not found"⟩)
    | some account =>
      if !(account.status == "active") then
        (db, .error ⟨"BAD_REQUEST", "Account is not active"⟩)
      else if !faults.insertReturnsRow then
        (db, .error ⟨"INTERNAL_SERVER_ERROR", "Failed to record transaction"⟩)
      else if !faults.updateReturnsRow then
        (fundDbAfterInsert db accountId amount src now,
         .error ⟨"INTERNAL_SERVER_ERROR", "Failed to update account balance"⟩)
      else
        (fundApplyBalance (fundDbAfterInsert db accountId amount src now)
           accountId (account.balance + centsFromDollars amount),
         .ok (serializeTransaction (fundTxn db accountId amount src now),
              dollarsFromCents (account.balance + centsFromDollars amount)))

/-- The ownership check of `accountRouter.getTransactions`: the account must
exist and belong to the caller. -/
def getTransactionsAccount (db : DB) (callerId accountId : Nat) : Option Account :=
  db.accounts.find? (fun a => a.id == accountId && a.userId == callerId)

/-- All transaction rows of an account, in insertion (rowid) order. -/
def txnsOf (db : DB) (accountId : Nat) : List Txn :=
  db.transactions.filter (fun t => t.accountId == accountId)

/-- The per-row payload of getTransactions: the serialized transaction
enriched with the account type taken from the single account fetch of the
call. -/
def enrichTxn (accountType : String) (t : Txn) : TxnOut × String :=
  (serializeTransaction t, accountType)

/-- `accountRouter.getTransactions` from account.ts, as a relation between
the call and its possible results.  The SQL `ORDER BY createdAt DESC`
pins only the key order: the result is some permutation of the account
transactions that is non-increasing in `createdAt`; rows with equal
`createdAt` may appear in any relative order, which is why the result is a
relation rather than a function.  Each row is enriched with the account
type of the single fetched account. -/
def getTransactionsRel (db : DB) (callerId accountId : Nat)
    (out : Except TrpcErr (List (TxnOut × String))) : Prop :=
  match getTransactionsAccount db callerId accountId with
  | none => out = .error ⟨"NOT_FOUND", "Account not found"⟩
  | some account =>
    ∃ ordered : List Txn,
      ordered.Perm (txnsOf db accountId) ∧
      ordered.Pairwise (fun a b => b.createdAt ≤ a.createdAt) ∧
      out = .ok (ordered.map (enrichTxn account.accountType))

/-! ## Ledger invariants -/

/-- The sum in cents of the recorded transactions of an account. -/
def txnSum (db : DB) (accountId : Nat) : Int :=
  ((txnsOf db accountId).map Txn.amount).sum

/-- The ledger invariant of the spec: every stored balance equals the sum of
the transaction amounts recorded for that account. -/
def ledgerConsistent (db : DB) : Prop :=
  ∀ a ∈ db.accounts, a.balance = txnSum db a.id

instance (db : DB) : Decidable (ledgerConsistent db) := by
  unfold ledgerConsistent; infer_instance

/-- The stored balance of an account id (first matching row). -/
def balanceOf (db : DB) (accountId : Nat) : Option Int :=
  (db.accounts.find? (fun a => a.id == accountId)).map Account.balance

/-! ## Claimed token-extraction precedence (for refinement comparison)

The spec describes the extraction precedence as: parsed cookie field, else
raw Cookie header, else header accessor.  This definition follows those
words (not the source) so the two orders can be compared. -/

/-- Follows the spec wording of the extraction precedence: (1) the parsed
cookie field when non-empty, else (2) the raw `Cookie` header field, else
(3) the header accessor function.  Compare with `getSessionToken`, whose
steps (2) and (3) are in the opposite order. -/
def claimedGetSessionToken (req : RequestLike) : Option String :=
  if jsTruthy (req.cookies.bind CookieJar.session) then
    req.cookies.bind CookieJar.session
  else if jsTruthy req.headers.cookie then
    parseCookieHeader req.headers.cookie
  else
    match req.headers.get with
    | some g => parseCookieHeader (g "cookie")
    | none => none

/-! ## The API as a transition system

One inbound mutation call, with its resolved identity and oracle inputs
(fresh token, drawn account number, call timestamp, storage faults), and
the sequential execution of a list of calls.  The query procedures
(`me`, `getAccounts`, `getTransactions`, `createContext`) take no write,
so only the five mutations appear. -/

inductive ApiOp where
  | signupOp (ctxUser : Option SafeUser) (input : SignupInput)
      (token : String) (now : Int)
  | loginOp (ctxUser : Option SafeUser) (email password token : String)
      (now : Int)
  | logoutOp (ctxUser : Option SafeUser) (req : RequestLike)
  | createAccountOp (callerId : Nat) (accountType accNum : String)
  | fundAccountOp (callerId accountId : Nat) (amount : ℚ)
      (src : FundingSource) (now : Int) (faults : StorageFaults)

/-- The database after one API call (the state is kept whether the call
succeeded or threw). -/
def apiStep (db : DB) : ApiOp → DB
  | .signupOp cu i t n => (signup db cu i t n).1
  | .loginOp cu e p t n => (login db cu e p t n).1
  | .logoutOp cu req => (logout db cu req).1
  | .createAccountOp cid ty num => (createAccount db cid ty num).1
  | .fundAccountOp cid aid amt src n f => (fundAccount db cid aid amt src n f).1

/-- The database after a sequence of API calls. -/
def apiRun (db : DB) (ops : List ApiOp) : DB :=
  ops.foldl apiStep db

/-- Well-formedness of the accounts table maintained by the code: account
ids are pairwise distinct and below the allocation counter. -/
def accountsWF (db : DB) : Prop :=
  (db.accounts.map Account.id).Nodup ∧
  ∀ a ∈ db.accounts, a.id < db.nextAccountId

instance (db : DB) : Decidable (accountsWF db) := by
  unfold accountsWF; infer_instance

/-- All stored balances are non-negative. -/
def balancesNonneg (db : DB) : Prop :=
  ∀ a ∈ db.accounts, 0 ≤ a.balance

instance (db : DB) : Decidable (balancesNonneg db) := by
  unfold balancesNonneg; infer_instance

/-- Every account of `d1` still exists in `d2` with a balance at least as
large. -/
def balancesLe (d1 d2 : DB) : Prop :=
  ∀ accId b, balanceOf d1 accId = some b →
    ∃ b', balanceOf d2 accId = some b' ∧ b ≤ b'

/-! ## Concrete fixtures used by the claim instances -/

/-- The empty database. -/
def emptyDb : DB := ⟨[], [], [], [], 1, 1, 1⟩

/-- A signup input whose email carries upper-case letters. -/
def demoInput : SignupInput :=
  { email := "Alice@Example.com", password := "password123",
    firstName := "A", lastName := "B", phoneNumber := "+1234567890",
    dateOfBirth := "1990-01-01", ssn := "123456789", address := "1 Main",
    city := "C", state := "NY", zipCode := "12345" }

/-- The envelope the modelled encrypter produces for the demo SSN in the
configured environment. -/
def demoSSNEnvelope : String :=
  (encryptSSNWith encryptionKeyEnv ivFixed "123456789").toOption.getD ""

/-- The signup call of the demo scenario, at time 0 with fresh token
`tokA`. -/
def authRun1 : DB × Except TrpcErr SignupOk :=
  signup emptyDb none demoInput "tokA" 0

def authDb1 : DB := authRun1.1

/-- A second, anonymous-context login of the same user at time 500 with
fresh token `tokB` (for instance from a different browser, which sends no
session cookie). -/
def authRun2 : DB × Except TrpcErr LoginOk :=
  login authDb1 none "alice@example.com" "password123" "tokB" 500

def authDb2 : DB := authRun2.1

/-- A database with a single active checking account (id 1, owner 7,
balance 0) and no transactions. -/
def acctDb : DB :=
  ⟨[], [], [⟨1, 7, "0000000001", "checking", 0, "active"⟩], [], 1, 2, 1⟩

/-- A request carrying the token in the parsed cookie jar. -/
def jarReqTok1 : RequestLike := ⟨some ⟨some "tok1"⟩, ⟨none, none⟩⟩

/-- A request carrying the token in the raw Cookie header field, with no
accessor function. -/
def rawReqTok1 : RequestLike := ⟨none, ⟨some "session=tok1", none⟩⟩

/-- A request carrying the token only in the raw Cookie header field while
also exposing an accessor function that knows nothing about it. -/
def hybridReq : RequestLike :=
  ⟨none, ⟨some "session=tok1", some (fun _ => none)⟩⟩

/-- A database holding one session row for token `tok1` expiring at 2000. -/
def tok1Db : DB := ⟨[], [⟨1, "tok1", 2000⟩], [], [], 2, 1, 1⟩

/-- A token codec acceptance: `tok1` decodes to user 1, everything else is
rejected. -/
def vf1 : String → Option Nat :=
  fun tok => if tok == "tok1" then some 1 else none

/-- A sanitized identity fixture. -/
def su1 : SafeUser :=
  ⟨1, "alice@example.com", "A", "B", "+1234567890", "1990-01-01",
   "1 Main", "C", "NY", "12345"⟩

/-- Two transactions of account 1 created at the same instant (ids 1 and 2,
in that insertion order). -/
def tieT1 : Txn := ⟨1, 1, "deposit", 100, "Funding from card", "completed", 100, 100⟩

def tieT2 : Txn := ⟨2, 1, "deposit", 200, "Funding from card", "completed", 100, 100⟩

/-- A database whose single account (id 1, owner 7) has the two same-instant
transactions above. -/
def tieDb : DB :=
  ⟨[], [], [⟨1, 7, "0000000001", "checking", 300, "active"⟩],
   [tieT1, tieT2], 1, 2, 3⟩

/-- Three transactions of account 1 with strictly increasing creation
times, inserted in order T1, T2, T3. -/
def triT1 : Txn := ⟨1, 1, "deposit", 100, "Funding from card", "completed", 100, 100⟩

def triT2 : Txn := ⟨2, 1, "deposit", 200, "Funding from card", "completed", 200, 200⟩

def triT3 : Txn := ⟨3, 1, "deposit", 300, "Funding from card", "completed", 300, 300⟩

/-- A database whose single account (id 1, owner 7) has the three
transactions above. -/
def triDb : DB :=
  ⟨[], [], [⟨1, 7, "0000000001", "checking", 600, "active"⟩],
   [triT1, triT2, triT3], 1, 2, 4⟩

/-! ## Claim theorems -/

/-- C3: session resolution treats a session as alive iff `expiresAt > now`
for the single resolution timestamp: whenever the extracted token's session
row has `expiresAt ≤ now` the resolution yields the anonymous identity, and
a non-anonymous resolution can only come from a session row with
`expiresAt > now`. -/
theorem C3_expiry_boundary_exclusive (db : DB) (req : RequestLike)
    (verify : String → Option Nat) (now : Int) :
    (∀ t s, getSessionToken req = some t → findSessionByToken db t = some s →
      s.expiresAt ≤ now → createContextUser db req verify now = none) ∧
    (∀ su, createContextUser db req verify now = some su →
      ∃ t s, getSessionToken req = some t ∧ findSessionByToken db t = some s ∧
        now < s.expiresAt) := by
  constructor
  · intro t s ht hs hexp
    unfold createContextUser
    rw [ht]
    cases h0 : (t == "") with
    | true => simp [h0]
    | false =>
      simp only [h0, Bool.false_eq_true, if_false]
      cases hv : verify t with
      | none => simp
      | some uid =>
        simp only [hs]
        rw [if_neg (not_lt.mpr hexp)]
  · intro su h
    unfold createContextUser at h
    split at h
    · exact absurd h (by simp)
    · rename_i t ht
      split at h
      · exact absurd h (by simp)
      · split at h
        · exact absurd h (by simp)
        · rename_i uid hv
          split at h
          · exact absurd h (by simp)
          · rename_i s hs
            split at h
            · rename_i hlt
              exact ⟨t, s, ht, hs, hlt⟩
            · exact absurd h (by simp)

/-- C3 witness: a session row whose expiry equals the resolution timestamp
(2000) resolves to the anonymous identity. -/
theorem C3_expiry_boundary_exclusive_witness :
    getSessionToken jarReqTok1 = some "tok1" ∧
    findSessionByToken tok1Db "tok1" = some ⟨1, "tok1", 2000⟩ ∧
    (2000 : Int) ≤ 2000 ∧
    createContextUser tok1Db jarReqTok1 vf1 2000 = none :=
  ⟨by decide, by decide, by decide,
    (C3_expiry_boundary_exclusive tok1Db jarReqTok1 vf1 2000).1 "tok1"
      ⟨1, "tok1", 2000⟩ (by decide) (by decide) (by decide)⟩

/-- C8: a login with an email matching no user and a login with an existing
email but a failing password check produce the identical
`InvalidCredentials` error (same code, same message), with no database
change in either case. -/
theorem C8_login_failures_indistinguishable (db : DB)
    (e1 p1 tok1 e2 p2 tok2 : String) (now1 now2 : Int) (u : User)
    (h1 : findUserByEmail db e1 = none)
    (h2 : findUserByEmail db e2 = some u)
    (h3 : bcryptCompare p2 u.password = false) :
    login db none e1 p1 tok1 now1 = (db, .error invalidCredentials) ∧
    login db none e2 p2 tok2 now2 = (db, .error invalidCredentials) := by
  constructor
  · unfold login
    rw [h1]
  · unfold login
    rw [h2]
    simp [h3]

/-- C8 witness: in the demo database, the unknown email
`nobody@example.com` and the known email with a wrong password fail with
the same error and leave the database unchanged. -/
theorem C8_login_failures_indistinguishable_witness :
    findUserByEmail authDb1 "nobody@example.com" = none ∧
    (∃ u, findUserByEmail authDb1 "alice@example.com" = some u ∧
      bcryptCompare "wrongpass" u.password = false) ∧
    login authDb1 none "nobody@example.com" "p1" "tokC" 600 =
      (authDb1, .error invalidCredentials) ∧
    login authDb1 none "alice@example.com" "wrongpass" "tokD" 700 =
      (authDb1, .error invalidCredentials) := by
  have h2 : findUserByEmail authDb1 "alice@example.com" =
      some ⟨1, "alice@example.com", bcryptHash "password123", "A", "B",
        "+1234567890", "1990-01-01", demoSSNEnvelope, "1 Main", "C",
        "NY", "12345"⟩ := by decide
  have h3 := C8_login_failures_indistinguishable authDb1 "nobody@example.com"
    "p1" "tokC" "alice@example.com" "wrongpass" "tokD" 600 700 _
    (by decide) h2 (by decide)
  exact ⟨by decide, ⟨_, h2, by decide⟩, h3.1, h3.2⟩

/-- C2 (code bug demonstration): a successful signup followed by a
successful login of the same user from a second anonymous context leaves
two session rows for that user, both unexpired at the login timestamp —
issuing the new session does not revoke the prior one, so the
one-live-session invariant fails after two consecutive successful
authentications. -/
theorem C2_sessions_accumulate :
    authRun1.2.isOk = true ∧
    authRun2.2.isOk = true ∧
    authDb2.sessions.map Session.token = ["tokA", "tokB"] ∧
    (∀ s ∈ authDb2.sessions, s.userId = 1 ∧ 500 < s.expiresAt) := by
  refine ⟨by decide, by decide, by decide, by decide⟩

/-- C1 (code bug demonstration): starting from a consistent ledger, a
funding call whose balance update fails after the transaction insert
succeeded throws, yet the returned state keeps the inserted transaction row
(amount 100 cents) while the balance stays 0 — the two writes are not one
atomic unit, and the balance-equals-sum invariant is broken. -/
theorem C1_funding_not_atomic :
    ledgerConsistent acctDb ∧
    (fundAccount acctDb 7 1 1 (.card "4111111111111111") 1000
        ⟨true, false⟩).2 =
      .error ⟨"INTERNAL_SERVER_ERROR", "Failed to update account balance"⟩ ∧
    (fundAccount acctDb 7 1 1 (.card "4111111111111111") 1000
        ⟨true, false⟩).1.transactions.map Txn.amount = [100] ∧
    balanceOf (fundAccount acctDb 7 1 1 (.card "4111111111111111") 1000
        ⟨true, false⟩).1 1 = some 0 ∧
    ¬ ledgerConsistent (fundAccount acctDb 7 1 1 (.card "4111111111111111")
        1000 ⟨true, false⟩).1 := by
  have h1 : fundInputValid 1 (.card "4111111111111111") = true := by
    unfold fundInputValid; norm_num
  have h2 : centsFromDollars 1 = 100 := by unfold centsFromDollars; norm_num
  simp only [fundAccount, fundTxn, fundDbAfterInsert, fundApplyBalance, h1, h2]
  refine ⟨by decide, by decide, by decide, by decide, by decide⟩

/-- C4 counterexample: the dollar amount `0.001` is accepted by the input
schema (it is positive in dollars), converts to 0 cents, and the funding
call succeeds, recording a zero-amount transaction — so the call does not
fail whenever the amount is non-positive after conversion to cents. -/
theorem C4_zero_cent_amount_accepted :
    centsFromDollars (1/1000) = 0 ∧
    (fundAccount acctDb 7 1 (1/1000) (.card "4111111111111111") 1000
        noFaults).2.isOk = true ∧
    (fundAccount acctDb 7 1 (1/1000) (.card "4111111111111111") 1000
        noFaults).1.transactions.map Txn.amount = [0] := by
  have h1 : fundInputValid (1/1000) (.card "4111111111111111") = true := by
    unfold fundInputValid; norm_num
  have h2 : centsFromDollars (1/1000) = 0 := by
    unfold centsFromDollars; norm_num
  refine ⟨h2, ?_, ?_⟩ <;>
    (simp only [fundAccount, fundTxn, fundDbAfterInsert, fundApplyBalance,
       h1, h2];
     decide)

/-- C4 amended: the schema validation rejects every non-positive dollar
amount before the mutation body runs, leaving the database (transactions
and balances) unchanged; the check is on the dollar amount before
conversion, so positive amounts rounding to zero cents pass. -/
theorem C4_amended_nonpositive_rejected_before_persistence (db : DB)
    (callerId accountId : Nat) (amount : ℚ) (src : FundingSource) (now : Int)
    (faults : StorageFaults) (h : amount ≤ 0) :
    fundAccount db callerId accountId amount src now faults =
      (db, .error zodBadRequest) := by
  have hv : fundInputValid amount src = false := by
    unfold fundInputValid
    simp [decide_eq_false (not_lt.mpr h)]
  unfold fundAccount
  simp [hv]

/-- C4 amended witness: funding with amount 0 is rejected with the schema
error and the database is unchanged. -/
theorem C4_amended_nonpositive_rejected_witness :
    (0 : ℚ) ≤ 0 ∧
    fundAccount acctDb 7 1 0 (.card "4111111111111111") 1000 noFaults =
      (acctDb, .error zodBadRequest) :=
  ⟨le_refl 0,
    C4_amended_nonpositive_rejected_before_persistence acctDb 7 1 0
      (.card "4111111111111111") 1000 noFaults (le_refl 0)⟩

/-- What a successful signup stored and returned: the inserted user carries
the normalized email, the bcrypt digest and the SSN envelope, and the RPC
payload is the sanitized projection of that stored row together with the
issued token. -/
theorem signup_ok_facts (db : DB) (input : SignupInput) (token : String)
    (now : Int) (db' : DB) (r : SignupOk)
    (h : signup db none input token now = (db', .ok r)) :
    ∃ u, u ∈ db'.users ∧
      u.email = validatedNormalizedEmail input.email ∧
      u.password = bcryptHash input.password ∧
      encryptSSNWith encryptionKeyEnv ivFixed input.ssn = .ok u.ssn ∧
      r.1 = sanitizeUser u ∧ r.2.1 = token := by
  simp only [signup] at h
  split at h
  · simp at h
  · split at h
    · simp at h
    · rename_i hnone
      split at h
      · simp at h
      · rename_i ssnEnvelope henc
        split at h
        · simp at h
        · rename_i user hfound
          have hmem :
              user ∈ (signupDbAfterUserInsert db input ssnEnvelope).users :=
            List.mem_of_find?_eq_some hfound
          have huser : user = signupInsertedUser db input ssnEnvelope := by
            have hmem' : user ∈
                db.users ++ [signupInsertedUser db input ssnEnvelope] := hmem
            rcases List.mem_append.mp hmem' with hin | hin
            · exfalso
              have hpred := List.find?_some hfound
              have hne : user.email ≠ validatedNormalizedEmail input.email := by
                intro he
                have hall := (List.find?_eq_none.mp hnone) user hin
                apply hall
                simp [findUserByEmail] at he ⊢
                exact he
              exact hne (by simpa using hpred)
            · simpa using hin
          have hdb : db' = _ := (Prod.mk.inj h).1.symm
          have hr : Except.ok (α := SignupOk) (sanitizeUser user, token,
              emailNotifications input.email) = .ok r := (Prod.mk.inj h).2
          have hr' : r = (sanitizeUser user, token,
              emailNotifications input.email) := by
            cases hr; rfl
          refine ⟨user, ?_, ?_, ?_, ?_, ?_, ?_⟩
          · rw [hdb]
            exact hmem
          · rw [huser]; rfl
          · rw [huser]; rfl
          · rw [henc, huser]
            rfl
          · rw [hr']
          · rw [hr']

/-- C7: a successful signup stores the bcrypt digest (which differs from
the submitted plaintext) and exactly the envelope the embedded
lib/encryption.ts pipeline produced for the submitted SSN, and the user
payloads returned by signup, login, me and session resolution are all
sanitized projections of a stored row, which by construction carry neither
the password digest nor the SSN envelope. -/
theorem C7_no_secrets_in_payloads :
    (∀ db input token now db' r,
      signup db none input token now = (db', .ok r) →
      ∃ u, u ∈ db'.users ∧ u.password = bcryptHash input.password ∧
        u.password ≠ input.password ∧
        encryptSSNWith encryptionKeyEnv ivFixed input.ssn = .ok u.ssn ∧
        r.1 = sanitizeUser u) ∧
    (∀ db cu email password token now db' r,
      login db cu email password token now = (db', .ok r) →
      ∃ u, u ∈ db.users ∧ r.1 = sanitizeUser u) ∧
    (∀ ctxUser, me ctxUser = ctxUser) ∧
    (∀ db req verify now su, createContextUser db req verify now = some su →
      ∃ u, u ∈ db.users ∧ su = sanitizeUser u) := by
  refine ⟨?_, ?_, fun _ => rfl, ?_⟩
  · intro db input token now db' r h
    obtain ⟨u, hmem, _, hpw, hssn, hsan, _⟩ := signup_ok_facts db input token
      now db' r h
    refine ⟨u, hmem, hpw, ?_, hssn, hsan⟩
    rw [hpw]
    intro he
    have hlen := congrArg String.length he
    rw [bcryptHash, String.length_append] at hlen
    have h7 : ("$2a$10$" : String).length = 7 := by decide
    rw [h7] at hlen
    omega
  · intro db cu email password token now db' r h
    unfold login at h
    split at h
    · simp at h
    · split at h
      · simp at h
      · rename_i user hfound
        split at h
        · have hr : Except.ok (α := LoginOk) (sanitizeUser user, token) =
              .ok r := (Prod.mk.inj h).2
          have hr' : r = (sanitizeUser user, token) := by cases hr; rfl
          exact ⟨user, List.mem_of_find?_eq_some hfound, by rw [hr']⟩
        · simp at h
  · intro db req verify now su h
    unfold createContextUser at h
    split at h
    · exact absurd h (by simp)
    · split at h
      · exact absurd h (by simp)
      · split at h
        · exact absurd h (by simp)
        · split at h
          · exact absurd h (by simp)
          · split at h
            · split at h
              · exact absurd h (by simp)
              · rename_i dbUser hfound
                have : su = sanitizeUser dbUser := by
                  cases h; rfl
                exact ⟨dbUser, List.mem_of_find?_eq_some hfound, this⟩
            · exact absurd h (by simp)

/-- C7 witness: the demo signup stores a digest differing from the
plaintext and returns a payload equal to the sanitized stored row. -/
theorem C7_no_secrets_in_payloads_witness :
    signup emptyDb none demoInput "tokA" 0 = (authDb1,
      .ok (su1, "tokA",
        [("emailNormalization",
          "Email was converted to lowercase for consistency")])) ∧
    (∃ u, u ∈ authDb1.users ∧ u.password = bcryptHash demoInput.password ∧
      u.password ≠ demoInput.password ∧
      encryptSSNWith encryptionKeyEnv ivFixed demoInput.ssn = .ok u.ssn ∧
      su1 = sanitizeUser u) :=
  ⟨by decide,
    C7_no_secrets_in_payloads.1 emptyDb demoInput "tokA" 0 authDb1
      (su1, "tokA",
        [("emailNormalization",
          "Email was converted to lowercase for consistency")])
      (by decide)⟩

/-- C9: signup persists the lowercased normalized email, while login looks
the user up by the raw submitted email with exact string matching; hence in
a database whose stored emails are all lowercase (as signup leaves them), a
login email differing from the stored one only in letter case matches no
row and fails with the `InvalidCredentials` error, whatever the password. -/
theorem C9_login_email_case_sensitive :
    (∀ db u e p tok now, (∀ v ∈ db.users, jsToLower v.email = v.email) →
      u ∈ db.users → jsToLower e = u.email → e ≠ u.email →
      login db none e p tok now = (db, .error invalidCredentials)) ∧
    (∀ db input token now db' r,
      signup db none input token now = (db', .ok r) →
      ∃ u, u ∈ db'.users ∧ u.email = jsToLower (jsTrim input.email)) := by
  constructor
  · intro db u e p tok now hlower hu hcase hne
    have hnone : findUserByEmail db e = none := by
      unfold findUserByEmail
      rw [List.find?_eq_none]
      intro v hv hveq
      have hveq' : v.email = e := by simpa using hveq
      have : jsToLower e = e := by
        conv_lhs => rw [← hveq']
        rw [hlower v hv, hveq']
      exact hne (by rw [← hcase, this])
    unfold login
    rw [hnone]
  · intro db input token now db' r h
    obtain ⟨u, hmem, hemail, _⟩ := signup_ok_facts db input token now db' r h
    exact ⟨u, hmem, hemail⟩

/-- C9 witness: in the demo database the stored email is the lowercase
`alice@example.com`; logging in as `Alice@example.com` with the correct
password still fails with `InvalidCredentials`. -/
theorem C9_login_email_case_sensitive_witness :
    (∀ v ∈ authDb1.users, jsToLower v.email = v.email) ∧
    (∃ u, u ∈ authDb1.users ∧ jsToLower "Alice@example.com" = u.email ∧
      "Alice@example.com" ≠ u.email) ∧
    login authDb1 none "Alice@example.com" "password123" "tokE" 800 =
      (authDb1, .error invalidCredentials) := by
  refine ⟨by decide, ⟨⟨1, "alice@example.com", bcryptHash "password123", "A",
    "B", "+1234567890", "1990-01-01", demoSSNEnvelope, "1 Main", "C",
    "NY", "12345"⟩, by decide, by decide, by decide⟩, ?_⟩
  exact C9_login_email_case_sensitive.1 authDb1
    ⟨1, "alice@example.com", bcryptHash "password123", "A", "B",
      "+1234567890", "1990-01-01", demoSSNEnvelope, "1 Main", "C",
      "NY", "12345"⟩
    "Alice@example.com" "password123" "tokE" 800 (by decide) (by decide)
    (by decide) (by decide)

/-- C6 counterexample: on a request whose raw Cookie header carries the
token while the accessor function knows nothing about it, the claimed
precedence (parsed cookie field, else raw header, else accessor) finds the
token, but the code tries the accessor before the raw header field and
finds nothing — and logout with a non-null identity then deletes no session
row even though it reports success. -/
theorem C6_extraction_precedence_counterexample :
    claimedGetSessionToken hybridReq = some "tok1" ∧
    getSessionToken hybridReq = none ∧
    logout tok1Db (some su1) hybridReq =
      (tok1Db, ⟨true, "Logged out successfully"⟩) ∧
    tok1Db.sessions = [⟨1, "tok1", 2000⟩] := by
  refine ⟨rfl, rfl, rfl, rfl⟩

/-- C6 amended: logout always succeeds at the RPC layer; with a null
identity it reports no active session and deletes nothing; with a non-null
identity it extracts the token with the same `getSessionToken` used by
resolution — whose precedence is parsed cookie field, else the header
accessor function when one exists, else the raw Cookie header field — and
deletes every session row carrying that token; in particular, for both real
transport shapes (parsed cookie jar only, raw header field only) carrying
`tok1`, the session row is gone after logout. -/
theorem C6_logout_idempotent_shared_extraction :
    (∀ db cu req, ((logout db cu req).2).success = true) ∧
    (∀ db req, logout db none req = (db, ⟨true, "No active session"⟩)) ∧
    (∀ db su req t, getSessionToken req = some t → t ≠ "" →
      logout db (some su) req =
        ({ db with sessions := db.sessions.filter (fun s => !(s.token == t)) },
         ⟨true, "Logged out successfully"⟩)) ∧
    (∀ req s, req.cookies.bind CookieJar.session = some s → s ≠ "" →
      getSessionToken req = some s) ∧
    (∀ req g, jsTruthy (req.cookies.bind CookieJar.session) = false →
      req.headers.get = some g →
      getSessionToken req = parseCookieHeader (g "cookie")) ∧
    (∀ req, jsTruthy (req.cookies.bind CookieJar.session) = false →
      req.headers.get = none →
      getSessionToken req = parseCookieHeader req.headers.cookie) ∧
    (getSessionToken jarReqTok1 = some "tok1" ∧
     getSessionToken rawReqTok1 = some "tok1" ∧
     (logout tok1Db (some su1) jarReqTok1).1.sessions = [] ∧
     (logout tok1Db (some su1) rawReqTok1).1.sessions = []) := by
  refine ⟨?_, ?_, ?_, ?_, ?_, ?_, by decide, by decide, by decide, by decide⟩
  · intro db cu req
    cases cu <;> rfl
  · intro db req
    rfl
  · intro db su req t ht hne
    unfold logout
    rw [ht]
    have hbe : (t == "") = false := by
      simpa using hne
    simp [hbe]
  · intro req s hjar hne
    unfold getSessionToken
    rw [hjar]
    have : jsTruthy (some s) = true := by
      simpa [jsTruthy] using hne
    simp [this]
  · intro req g hjar hget
    unfold getSessionToken
    rw [hjar, hget]
    simp
  · intro req hjar hget
    unfold getSessionToken
    rw [hjar, hget]
    simp

/-- C6 amended witness: concrete applications of the idempotence and the
delete-by-token clauses. -/
theorem C6_logout_idempotent_shared_extraction_witness :
    logout tok1Db none jarReqTok1 = (tok1Db, ⟨true, "No active session"⟩) ∧
    (getSessionToken jarReqTok1 = some "tok1" ∧ "tok1" ≠ "" ∧
      logout tok1Db (some su1) jarReqTok1 =
        ({ tok1Db with
             sessions := tok1Db.sessions.filter (fun s => !(s.token == "tok1")) },
         ⟨true, "Logged out successfully"⟩)) :=
  ⟨C6_logout_idempotent_shared_extraction.2.1 tok1Db jarReqTok1,
   by decide, by decide,
   C6_logout_idempotent_shared_extraction.2.2.1 tok1Db su1 jarReqTok1 "tok1"
     (by decide) (by decide)⟩

/-- C5 counterexample: for two transactions of the same account created at
the same instant (inserted as T1 then T2), both result orders satisfy the
code's query contract (`ORDER BY createdAt DESC` pins no tie order), so the
result is not determined to be the insertion-sequence order [T2, T1] — the
claimed deterministic tie-break does not exist in the code. -/
theorem C5_same_instant_order_not_deterministic :
    getTransactionsRel tieDb 7 1
      (.ok ([tieT2, tieT1].map (enrichTxn "checking"))) ∧
    getTransactionsRel tieDb 7 1
      (.ok ([tieT1, tieT2].map (enrichTxn "checking"))) ∧
    (Except.ok (ε := TrpcErr) ([tieT1, tieT2].map (enrichTxn "checking")) ≠
      .ok ([tieT2, tieT1].map (enrichTxn "checking"))) := by
  refine ⟨⟨[tieT2, tieT1], by decide, by decide, rfl⟩,
          ⟨[tieT1, tieT2], by decide, by decide, rfl⟩, ?_⟩
  intro h
  have hl := Except.ok.inj h
  have hids := congrArg (List.map (fun x : TxnOut × String => x.1.id)) hl
  simp [enrichTxn, serializeTransaction, tieT1, tieT2] at hids

/-- C5 amended: getTransactions of an owned account returns the rows newest
first by creation time, each enriched with the type of the single fetched
account; when the creation times are strictly increasing in insertion order
(no same-instant rows) the result is uniquely determined and is the reverse
of the insertion order — for T1, T2, T3 it is [T3, T2, T1].  Only the
tie-break for same-instant rows claimed by the spec is absent. -/
theorem C5_amended_newest_first_distinct_times (db : DB)
    (callerId accountId : Nat) (account : Account)
    (out : Except TrpcErr (List (TxnOut × String)))
    (hacc : getTransactionsAccount db callerId accountId = some account)
    (hmono : (txnsOf db accountId).Pairwise
      (fun a b => a.createdAt < b.createdAt))
    (hout : getTransactionsRel db callerId accountId out) :
    out = .ok (((txnsOf db accountId).reverse).map
      (enrichTxn account.accountType)) := by
  unfold getTransactionsRel at hout
  rw [hacc] at hout
  obtain ⟨ordered, hperm, hpair, heq⟩ := hout
  have hnodup : ((txnsOf db accountId).map Txn.createdAt).Nodup :=
    (List.pairwise_map.mpr hmono).imp ne_of_lt
  have hnodup' : (ordered.map Txn.createdAt).Nodup :=
    ((hperm.map Txn.createdAt).nodup_iff).mpr hnodup
  have hne : ordered.Pairwise (fun a b => a.createdAt ≠ b.createdAt) :=
    List.pairwise_map.mp hnodup'
  have hstrict : ordered.Pairwise (fun a b => b.createdAt < a.createdAt) :=
    (hpair.and hne).imp (fun hab => lt_of_le_of_ne hab.1 (Ne.symm hab.2))
  have hrevstrict : ((txnsOf db accountId).reverse).Pairwise
      (fun a b => b.createdAt < a.createdAt) :=
    List.pairwise_reverse.mpr hmono
  haveI : IsAntisymm Txn (fun a b => b.createdAt < a.createdAt) :=
    ⟨fun a b h1 h2 => absurd (lt_trans h1 h2) (lt_irrefl _)⟩
  have hordered : ordered = (txnsOf db accountId).reverse :=
    List.eq_of_perm_of_sorted
      (hperm.trans (List.reverse_perm (txnsOf db accountId)).symm)
      hstrict hrevstrict
  rw [heq, hordered]

/-- C5 amended witness: inserting T1, T2, T3 with strictly increasing
creation times, the only valid result is [T3, T2, T1], enriched with the
account type of the single fetched account. -/
theorem C5_amended_newest_first_distinct_times_witness :
    getTransactionsAccount triDb 7 1 =
      some ⟨1, 7, "0000000001", "checking", 600, "active"⟩ ∧
    (txnsOf triDb 1).Pairwise (fun a b => a.createdAt < b.createdAt) ∧
    getTransactionsRel triDb 7 1
      (.ok ([triT3, triT2, triT1].map (enrichTxn "checking"))) ∧
    (Except.ok (ε := TrpcErr)
        ([triT3, triT2, triT1].map (enrichTxn "checking")) =
      .ok (((txnsOf triDb 1).reverse).map (enrichTxn "checking"))) := by
  have hacc : getTransactionsAccount triDb 7 1 =
      some ⟨1, 7, "0000000001", "checking", 600, "active"⟩ := by decide
  have hmono : (txnsOf triDb 1).Pairwise
      (fun a b => a.createdAt < b.createdAt) := by decide
  have hrel : getTransactionsRel triDb 7 1
      (.ok ([triT3, triT2, triT1].map (enrichTxn "checking"))) :=
    ⟨[triT3, triT2, triT1], by decide, by decide, rfl⟩
  exact ⟨hacc, hmono, hrel,
    C5_amended_newest_first_distinct_times triDb 7 1
      ⟨1, 7, "0000000001", "checking", 600, "active"⟩
      (.ok ([triT3, triT2, triT1].map (enrichTxn "checking")))
      hacc hmono hrel⟩

/-! ## Ledger safety: support lemmas for the transition system -/

/-- A positive dollar amount converts to a non-negative number of cents. -/
theorem centsFromDollars_nonneg (amount : ℚ) (h : 0 < amount) :
    0 ≤ centsFromDollars amount := by
  unfold centsFromDollars
  refine Int.floor_nonneg.mpr ?_
  nlinarith

/-- Signup writes only users and sessions. -/
theorem signup_accounts_untouched (db : DB) (cu : Option SafeUser)
    (i : SignupInput) (t : String) (n : Int) :
    (signup db cu i t n).1.accounts = db.accounts ∧
    (signup db cu i t n).1.nextAccountId = db.nextAccountId := by
  unfold signup
  split
  · exact ⟨rfl, rfl⟩
  · split
    · exact ⟨rfl, rfl⟩
    · split
      · exact ⟨rfl, rfl⟩
      · split
        · exact ⟨rfl, rfl⟩
        · split <;> exact ⟨rfl, rfl⟩

/-- Login writes only sessions. -/
theorem login_accounts_untouched (db : DB) (cu : Option SafeUser)
    (e p t : String) (n : Int) :
    (login db cu e p t n).1.accounts = db.accounts ∧
    (login db cu e p t n).1.nextAccountId = db.nextAccountId := by
  unfold login
  split
  · exact ⟨rfl, rfl⟩
  · split
    · exact ⟨rfl, rfl⟩
    · split <;> exact ⟨rfl, rfl⟩

/-- Logout writes only sessions. -/
theorem logout_accounts_untouched (db : DB) (cu : Option SafeUser)
    (req : RequestLike) :
    (logout db cu req).1.accounts = db.accounts ∧
    (logout db cu req).1.nextAccountId = db.nextAccountId := by
  unfold logout
  split
  · split
    · split <;> exact ⟨rfl, rfl⟩
    · exact ⟨rfl, rfl⟩
  · exact ⟨rfl, rfl⟩

/-- The two possible account-table outcomes of createAccount: unchanged, or
the new zero-balance row appended under the next id. -/
theorem createAccount_state (db : DB) (cid : Nat) (ty num : String) :
    (createAccount db cid ty num).1 = db ∨
    (createAccount db cid ty num).1 =
      createAccountDbAfterInsert db cid ty num := by
  unfold createAccount
  split
  · left; rfl
  · split
    · left; rfl
    · split <;> (right; rfl)

/-- The two possible account-table outcomes of fundAccount: the accounts
rows unchanged (any failing branch, including the one that keeps the
inserted transaction row), or the balance update applied to the rows whose
id matches, with a positive validated amount. -/
theorem fundAccount_state (db : DB) (cid aid : Nat) (amount : ℚ)
    (src : FundingSource) (now : Int) (faults : StorageFaults) :
    ((fundAccount db cid aid amount src now faults).1.accounts =
        db.accounts ∧
     (fundAccount db cid aid amount src now faults).1.nextAccountId =
        db.nextAccountId) ∨
    (∃ account,
      db.accounts.find? (fun a => a.id == aid && a.userId == cid) =
        some account ∧
      0 < amount ∧
      (fundAccount db cid aid amount src now faults).1.accounts =
        db.accounts.map (fun a =>
          if a.id == aid then
            { a with balance := account.balance + centsFromDollars amount }
          else a) ∧
      (fundAccount db cid aid amount src now faults).1.nextAccountId =
        db.nextAccountId) := by
  unfold fundAccount
  split
  · left; exact ⟨rfl, rfl⟩
  · rename_i hvalid
    split
    · left; exact ⟨rfl, rfl⟩
    · split
      · left; exact ⟨rfl, rfl⟩
      · rename_i account hfound
        split
        · left; exact ⟨rfl, rfl⟩
        · split
          · left; exact ⟨rfl, rfl⟩
          · split
            · left; exact ⟨rfl, rfl⟩
            · right
              refine ⟨account, hfound, ?_, rfl, rfl⟩
              have hv : fundInputValid amount src = true := by
                cases h : fundInputValid amount src
                · rw [h] at hvalid; simp at hvalid
                · rfl
              unfold fundInputValid at hv
              exact of_decide_eq_true ((Bool.and_eq_true _ _).mp hv).1

/-- Balance monotonicity is reflexive and transitive. -/
theorem balancesLe_refl (db : DB) : balancesLe db db :=
  fun _ b hb => ⟨b, hb, le_refl b⟩

theorem balancesLe_trans {d1 d2 d3 : DB} (h12 : balancesLe d1 d2)
    (h23 : balancesLe d2 d3) : balancesLe d1 d3 := by
  intro accId b hb
  obtain ⟨b2, hb2, hle2⟩ := h12 accId b hb
  obtain ⟨b3, hb3, hle3⟩ := h23 accId b2 hb2
  exact ⟨b3, hb3, le_trans hle2 hle3⟩

/-- A call that leaves the accounts table and the id counter unchanged
preserves the three account invariants. -/
theorem state_preserved_inv {db db' : DB} (ha : db'.accounts = db.accounts)
    (hn : db'.nextAccountId = db.nextAccountId) (hwf : accountsWF db)
    (hnn : balancesNonneg db) :
    accountsWF db' ∧ balancesNonneg db' ∧ balancesLe db db' := by
  refine ⟨⟨?_, ?_⟩, ?_, ?_⟩
  · rw [ha]; exact hwf.1
  · rw [ha, hn]; exact hwf.2
  · unfold balancesNonneg
    rw [ha]; exact hnn
  · intro accId b hb
    refine ⟨b, ?_, le_refl b⟩
    unfold balanceOf at hb ⊢
    rw [ha]; exact hb

/-- One API call preserves well-formedness and non-negativity of the
accounts table and never lowers any stored balance. -/
theorem apiStep_inv (db : DB) (op : ApiOp) (hwf : accountsWF db)
    (hnn : balancesNonneg db) :
    accountsWF (apiStep db op) ∧ balancesNonneg (apiStep db op) ∧
      balancesLe db (apiStep db op) := by
  cases op with
  | signupOp cu i t n =>
    exact state_preserved_inv (signup_accounts_untouched db cu i t n).1
      (signup_accounts_untouched db cu i t n).2 hwf hnn
  | loginOp cu e p t n =>
    exact state_preserved_inv (login_accounts_untouched db cu e p t n).1
      (login_accounts_untouched db cu e p t n).2 hwf hnn
  | logoutOp cu req =>
    exact state_preserved_inv (logout_accounts_untouched db cu req).1
      (logout_accounts_untouched db cu req).2 hwf hnn
  | createAccountOp cid ty num =>
    rcases createAccount_state db cid ty num with h | h
    · exact state_preserved_inv (by rw [apiStep, h]) (by rw [apiStep, h])
        hwf hnn
    · have ha : (apiStep db (.createAccountOp cid ty num)).accounts =
          db.accounts ++ [createdAccountRow db cid ty num] := by
        rw [apiStep, h]; rfl
      have hn : (apiStep db (.createAccountOp cid ty num)).nextAccountId =
          db.nextAccountId + 1 := by
        rw [apiStep, h]; rfl
      refine ⟨⟨?_, ?_⟩, ?_, ?_⟩
      · rw [ha, List.map_append]
        refine List.nodup_append.mpr ⟨hwf.1, List.nodup_singleton _, ?_⟩
        intro x hx hx'
        obtain ⟨a, hamem, haeq⟩ := List.mem_map.mp hx
        have hlt := hwf.2 a hamem
        have : x = db.nextAccountId := by
          simpa [createdAccountRow] using hx'
        omega
      · rw [ha, hn]
        intro a hamem
        rcases List.mem_append.mp hamem with hin | hin
        · have := hwf.2 a hin; omega
        · have : a = createdAccountRow db cid ty num := by simpa using hin
          rw [this]; simp [createdAccountRow]
      · unfold balancesNonneg
        rw [ha]
        intro a hamem
        rcases List.mem_append.mp hamem with hin | hin
        · exact hnn a hin
        · have : a = createdAccountRow db cid ty num := by simpa using hin
          rw [this]; unfold createdAccountRow; simp
      · intro accId b hb
        refine ⟨b, ?_, le_refl b⟩
        unfold balanceOf at hb ⊢
        rw [ha]
        obtain ⟨a0, hfind0, hbal⟩ := Option.map_eq_some'.mp hb
        rw [List.find?_append, hfind0]
        simpa using hbal
  | fundAccountOp cid aid amount src n f =>
    rcases fundAccount_state db cid aid amount src n f with ⟨h1, h2⟩ | h
    · exact state_preserved_inv h1 h2 hwf hnn
    · obtain ⟨account, hfound, hpos, ha, hn⟩ := h
      simp only [apiStep]
      have hcents : 0 ≤ centsFromDollars amount :=
        centsFromDollars_nonneg amount hpos
      have haccmem : account ∈ db.accounts :=
        List.mem_of_find?_eq_some hfound
      have haccid : account.id = aid := by
        have := List.find?_some hfound
        have := ((Bool.and_eq_true _ _).mp this).1
        simpa using this
      have hids : (db.accounts.map (fun a =>
          if a.id == aid then
            { a with balance := account.balance + centsFromDollars amount }
          else a)).map Account.id = db.accounts.map Account.id := by
        rw [List.map_map]
        refine List.map_congr_left ?_
        intro a _
        by_cases hid : a.id = aid <;> simp [hid]
      refine ⟨⟨?_, ?_⟩, ?_, ?_⟩
      · rw [ha, hids]; exact hwf.1
      · rw [ha, hn]
        intro a hamem
        obtain ⟨a0, ha0, rfl⟩ := List.mem_map.mp hamem
        by_cases hid : a0.id = aid <;> simp [hid]
        · exact hid ▸ hwf.2 a0 ha0
        · exact hwf.2 a0 ha0
      · unfold balancesNonneg
        rw [ha]
        intro a hamem
        obtain ⟨a0, ha0, rfl⟩ := List.mem_map.mp hamem
        by_cases hid : a0.id = aid <;> simp [hid]
        · exact add_nonneg (hnn account haccmem) hcents
        · exact hnn a0 ha0
      · intro accId b hb
        unfold balanceOf at hb ⊢
        rw [ha]
        obtain ⟨a0, hfind0, hbal⟩ := Option.map_eq_some'.mp hb
        have hpred : ((fun a : Account => a.id == accId) ∘ (fun a =>
            if a.id == aid then
              { a with balance := account.balance + centsFromDollars amount }
            else a)) = (fun a : Account => a.id == accId) := by
          funext a
          by_cases hid : a.id = aid <;> simp [hid]
        rw [List.find?_map, hpred, hfind0]
        by_cases hid0 : a0.id = aid
        · have ha0mem : a0 ∈ db.accounts := List.mem_of_find?_eq_some hfind0
          have ha0acc : a0 = account := by
            refine List.inj_on_of_nodup_map hwf.1 ha0mem haccmem ?_
            rw [haccid]
            exact hid0
          refine ⟨account.balance + centsFromDollars amount, ?_, ?_⟩
          · simp [hid0]
          · rw [← hbal, ha0acc]
            exact le_add_of_nonneg_right hcents
        · refine ⟨b, ?_, le_refl b⟩
          simp [hid0, hbal]

/-- A sequence of API calls preserves the invariants and never lowers any
stored balance. -/
theorem apiRun_inv (ops : List ApiOp) (db : DB) (hwf : accountsWF db)
    (hnn : balancesNonneg db) :
    accountsWF (apiRun db ops) ∧ balancesNonneg (apiRun db ops) ∧
      balancesLe db (apiRun db ops) := by
  induction ops generalizing db with
  | nil => exact ⟨hwf, hnn, balancesLe_refl db⟩
  | cons op ops ih =>
    obtain ⟨hwf1, hnn1, hle1⟩ := apiStep_inv db op hwf hnn
    obtain ⟨hwf2, hnn2, hle2⟩ := ih (apiStep db op) hwf1 hnn1
    exact ⟨hwf2, hnn2, balancesLe_trans hle1 hle2⟩

/-- C10: across any sequence of API calls starting from a well-formed
state, account balances stay non-negative and never decrease; createAccount
only ever adds rows with balance 0; and fundAccount only ever adds a
non-negative integer-cents amount (the converted cents of a
schema-validated positive dollar amount) to the stored balance. -/
theorem C10_balances_nonneg_never_decrease (db : DB) (ops : List ApiOp)
    (hwf : accountsWF db) (hnn : balancesNonneg db) :
    balancesNonneg (apiRun db ops) ∧
    balancesLe db (apiRun db ops) ∧
    (∀ (db0 : DB) (cid : Nat) (ty num : String),
      ∀ a ∈ (createAccount db0 cid ty num).1.accounts,
        a ∈ db0.accounts ∨ a.balance = 0) ∧
    (∀ (amount : ℚ) (src : FundingSource),
      fundInputValid amount src = true → 0 ≤ centsFromDollars amount) := by
  refine ⟨(apiRun_inv ops db hwf hnn).2.1, (apiRun_inv ops db hwf hnn).2.2,
    ?_, ?_⟩
  · intro db0 cid ty num a ha
    rcases createAccount_state db0 cid ty num with h | h
    · rw [h] at ha
      exact .inl ha
    · rw [h] at ha
      simp only [createAccountDbAfterInsert] at ha
      rcases List.mem_append.mp ha with hin | hin
      · exact .inl hin
      · right
        have : a = createdAccountRow db0 cid ty num := by simpa using hin
        rw [this]
        rfl
  · intro amount src hv
    unfold fundInputValid at hv
    exact centsFromDollars_nonneg amount
      (of_decide_eq_true ((Bool.and_eq_true _ _).mp hv).1)

/-- C10 witness: one funding call on the demo account keeps the balance
non-negative and not below its previous value. -/
theorem C10_balances_nonneg_never_decrease_witness :
    accountsWF acctDb ∧ balancesNonneg acctDb ∧
    balancesNonneg (apiRun acctDb
      [.fundAccountOp 7 1 1 (.card "4111111111111111") 1000 noFaults]) ∧
    balancesLe acctDb (apiRun acctDb
      [.fundAccountOp 7 1 1 (.card "4111111111111111") 1000 noFaults]) :=
  ⟨by decide, by decide,
   (C10_balances_nonneg_never_decrease acctDb
     [.fundAccountOp 7 1 1 (.card "4111111111111111") 1000 noFaults]
     (by decide) (by decide)).1,
   (C10_balances_nonneg_never_decrease acctDb
     [.fundAccountOp 7 1 1 (.card "4111111111111111") 1000 noFaults]
     (by decide) (by decide)).2.1⟩

/-- The state returned by a successful funding call: the transaction row
appended, and the balance rows with the funded id updated to the pre-read
balance plus the converted cents. -/
theorem fundAccount_ok_state (db : DB) (cid aid : Nat) (amount : ℚ)
    (src : FundingSource) (now : Int) (faults : StorageFaults) (db' : DB)
    (r : FundOk)
    (h : fundAccount db cid aid amount src now faults = (db', .ok r)) :
    ∃ account,
      db.accounts.find? (fun a => a.id == aid && a.userId == cid) =
        some account ∧
      db' = fundApplyBalance (fundDbAfterInsert db aid amount src now) aid
        (account.balance + centsFromDollars amount) := by
  unfold fundAccount at h
  split at h
  · simp at h
  · split at h
    · simp at h
    · split at h
      · simp at h
      · rename_i account hfound
        split at h
        · simp at h
        · split at h
          · simp at h
          · split at h
            · simp at h
            · exact ⟨account, hfound, (Prod.mk.inj h).1.symm⟩

/-- In a fault-free run the funding call preserves the ledger invariant:
the updated balance absorbs exactly the inserted transaction amount.  (The
broken case needs a storage fault between the two writes, as
demonstrated for claim C1.) -/
theorem fundAccount_ok_preserves_ledgerConsistent (db : DB) (cid aid : Nat)
    (amount : ℚ) (src : FundingSource) (now : Int) (faults : StorageFaults)
    (db' : DB) (r : FundOk) (hwf : accountsWF db)
    (hcons : ledgerConsistent db)
    (h : fundAccount db cid aid amount src now faults = (db', .ok r)) :
    ledgerConsistent db' := by
  obtain ⟨account, hfound, hdb⟩ :=
    fundAccount_ok_state db cid aid amount src now faults db' r h
  have haccmem : account ∈ db.accounts := List.mem_of_find?_eq_some hfound
  have haccid : account.id = aid := by
    have := List.find?_some hfound
    simpa using ((Bool.and_eq_true _ _).mp this).1
  subst hdb
  have haccs : (fundApplyBalance (fundDbAfterInsert db aid amount src now)
      aid (account.balance + centsFromDollars amount)).accounts =
      db.accounts.map (fun a =>
        if a.id == aid then
          { a with balance := account.balance + centsFromDollars amount }
        else a) := rfl
  have hsum : ∀ i : Nat,
      txnSum (fundApplyBalance (fundDbAfterInsert db aid amount src now)
        aid (account.balance + centsFromDollars amount)) i =
      txnSum db i + (if aid = i then centsFromDollars amount else 0) := by
    intro i
    unfold txnSum txnsOf
    have htr : (fundApplyBalance (fundDbAfterInsert db aid amount src now)
        aid (account.balance + centsFromDollars amount)).transactions =
        db.transactions ++ [fundTxn db aid amount src now] := rfl
    rw [htr, List.filter_append, List.map_append, List.sum_append]
    by_cases hii : aid = i
    · simp [fundTxn, hii]
    · simp [fundTxn, hii]
  intro a' ha'
  rw [haccs] at ha'
  obtain ⟨a0, ha0, rfl⟩ := List.mem_map.mp ha'
  rcases eq_or_ne a0.id aid with hid | hid
  · have ha0acc : a0 = account :=
      List.inj_on_of_nodup_map hwf.1 ha0 haccmem (by rw [haccid]; exact hid)
    have hb : (a0.id == aid) = true := by simpa using hid
    simp only [hb, if_true]
    have hidstep :
        ({ a0 with balance := account.balance + centsFromDollars amount } :
          Account).id = a0.id := rfl
    rw [hidstep, hsum a0.id, hid]
    simp only [if_pos rfl]
    have : account.balance = txnSum db aid := by
      rw [← haccid]; exact hcons account haccmem
    show account.balance + centsFromDollars amount =
      txnSum db aid + centsFromDollars amount
    rw [this]
  · have hb : (a0.id == aid) = false := by simpa using hid
    simp only [hb, Bool.false_eq_true, if_false]
    rw [hsum a0.id, if_neg (fun hh => hid hh.symm)]
    simpa using hcons a0 ha0

end GlideBank
